import Mathlib

/-!
Shallow embedding of the tunnelhook per-endpoint relay actor (EndpointDO) and
the machine-side client helpers, translated from the TypeScript source.

Modelling conventions:
- A WebSocket is a `Socket`: a numeric handle `sid` plus the attachment that
  `serializeAttachment` stored at upgrade time (every accepted socket gets an
  attachment before any callback can fire, so the attachment is not optional).
- The Durable Object state is the list of currently accepted sockets
  (`ctx.getWebSockets()`).
- Outbound `ws.send(JSON.stringify(msg))` calls are recorded structurally as
  `(sid, message)` pairs; JSON serialization is elided.
- JavaScript truthiness tests on optional strings (`machineId &&`,
  `!deliveryId`) are modelled by `jsTruthy`, which rejects both a missing
  value and the empty string; `??` (nullish coalescing) is `Option.getD`.
- Role and status discriminants are kept as raw strings, as in the source,
  which compares them with string literals and never validates them.
-/

/-- Attachment stored on each WebSocket (interface WsAttachment). -/
structure WsAttachment where
  machineId : Option String
  machineName : Option String
  role : String
  userId : String
  deriving DecidableEq, Repr

/-- One accepted WebSocket: an identifying handle plus its attachment. -/
structure Socket where
  sid : Nat
  attachment : WsAttachment
  deriving DecidableEq, Repr

/-- The Durable Object connection state: the sockets ctx.getWebSockets returns. -/
structure DOState where
  sockets : List Socket
  deriving DecidableEq, Repr

/-- JavaScript truthiness on a possibly-absent string: undefined/null and the
empty string are falsy, every other string is kept. -/
def jsTruthy : Option String → Option String
  | none => none
  | some s => if s = "" then none else some s

/-- Indexing a JS Record<string,string> by key: the value, or undefined. -/
def jsLookup (m : List (String × String)) (k : String) : Option String :=
  (m.find? (fun kv => kv.1 = k)).map (fun kv => kv.2)

/-- Server message: webhook event fan-out payload (WebhookEventMessage). -/
structure WebhookEventMessage where
  body : Option String
  contentType : Option String
  createdAt : String
  deliveryId : String
  eventId : String
  headers : String
  method : String
  query : Option String
  sourceIp : Option String
  deriving DecidableEq, Repr

/-- Server message: delivery result relayed to viewers and other machines. -/
structure DeliveryResultMessage where
  deliveryId : String
  duration : Option Nat
  error : Option String
  eventId : String
  machineId : String
  machineName : String
  responseBody : Option String
  responseStatus : Option Nat
  status : String
  deriving DecidableEq, Repr

/-- Server message: machine presence (online/offline). -/
structure MachineStatusMessage where
  machineId : String
  machineName : String
  status : String
  deriving DecidableEq, Repr

/-- The three server→client message shapes; the constructor plays the role of
the JSON type discriminant. -/
inductive ServerMessage where
  | webhook (m : WebhookEventMessage)
  | deliveryResult (m : DeliveryResultMessage)
  | machineStatus (m : MachineStatusMessage)
  deriving DecidableEq, Repr

/-- One ws.send: target socket handle and the message sent on it. -/
abbrev Send := Nat × ServerMessage

/-- Messages a list of sends delivers to one socket handle, in order. -/
def sendsTo (sends : List Send) (sid : Nat) : List ServerMessage :=
  (sends.filter (fun s => s.1 == sid)).map (fun s => s.2)

/-- getMachineWebSockets: sockets whose attachment role is "machine". -/
def getMachineWebSockets (st : DOState) : List Socket :=
  st.sockets.filter (fun ws => ws.attachment.role == "machine")

/-- getViewerWebSockets: sockets whose attachment role is "viewer". -/
def getViewerWebSockets (st : DOState) : List Socket :=
  st.sockets.filter (fun ws => ws.attachment.role == "viewer")

/-- broadcastToViewers: best-effort send of one message to every viewer. -/
def broadcastToViewers (st : DOState) (message : ServerMessage) : List Send :=
  (getViewerWebSockets st).map (fun ws => (ws.sid, message))

/-- broadcastToMachines: best-effort send to every machine socket, skipping
the optional excluded socket (compared by handle, as the source compares by
object identity). -/
def broadcastToMachines (st : DOState) (message : ServerMessage)
    (excluded : Option Socket) : List Send :=
  ((getMachineWebSockets st).filter (fun ws =>
      match excluded with
      | some e => ws.sid != e.sid
      | none => true)).map (fun ws => (ws.sid, message))

/-- Body of POST /broadcast as read by handleBroadcast; `deliveries` is the
pre-created machineId → deliveryId record. -/
structure BroadcastPayload where
  body : Option String
  contentType : Option String
  createdAt : String
  deliveries : List (String × String)
  eventId : String
  headers : String
  method : String
  query : Option String
  sourceIp : Option String
  deriving DecidableEq, Repr

/-- handleBroadcast: fan a captured webhook event out to connected machines.
For each machine socket: skip when the attachment machineId is falsy, skip
when the deliveries record has no truthy entry for it, otherwise send the
webhook message carrying that machine's deliveryId. The HTTP response body is
the pair's second component: `{ sent: machines.length }`. -/
def handleBroadcast (st : DOState) (payload : BroadcastPayload) :
    List Send × Nat :=
  let machines := getMachineWebSockets st
  let sends := machines.filterMap (fun ws =>
    match jsTruthy ws.attachment.machineId with
    | none => none
    | some machineId =>
      match jsTruthy (jsLookup payload.deliveries machineId) with
      | none => none
      | some deliveryId =>
        some (ws.sid, ServerMessage.webhook {
          eventId := payload.eventId
          deliveryId := deliveryId
          method := payload.method
          headers := payload.headers
          body := payload.body
          query := payload.query
          contentType := payload.contentType
          sourceIp := payload.sourceIp
          createdAt := payload.createdAt }))
  (sends, machines.length)

/-- Query parameters of a /websocket upgrade request (searchParams.get gives
null for an absent parameter, modelled as none). -/
structure UpgradeParams where
  role : Option String
  machineId : Option String
  machineName : Option String
  userId : Option String
  deriving DecidableEq, Repr

/-- handleWebSocketUpgrade: reject with 400 when role or userId is falsy;
otherwise accept the socket (appending it to the state) with the attachment
built from the parameters, then, for a machine with truthy id and name,
broadcast an online machine-status to all viewers, and for a viewer send it
one synthetic online machine-status per machine socket whose attachment has a
truthy id and name. `fresh` is the handle of the newly created server socket.
Returns the new state and the sends the upgrade performed. -/
def handleWebSocketUpgrade (st : DOState) (fresh : Nat)
    (params : UpgradeParams) : Except Nat (DOState × List Send) :=
  match jsTruthy params.role, jsTruthy params.userId with
  | some role, some userId =>
    let attachment : WsAttachment := {
      role := role
      machineId := params.machineId
      machineName := params.machineName
      userId := userId }
    let server : Socket := { sid := fresh, attachment := attachment }
    let st1 : DOState := { sockets := st.sockets ++ [server] }
    let onlineSends :=
      if role = "machine" then
        match jsTruthy params.machineId, jsTruthy params.machineName with
        | some machineId, some machineName =>
          broadcastToViewers st1 (ServerMessage.machineStatus {
            machineId := machineId
            machineName := machineName
            status := "online" })
        | _, _ => []
      else []
    let snapshotSends :=
      if role = "viewer" then
        (getMachineWebSockets st1).filterMap (fun ws =>
          match jsTruthy ws.attachment.machineId,
              jsTruthy ws.attachment.machineName with
          | some machineId, some machineName =>
            some ((server.sid, ServerMessage.machineStatus {
              machineId := machineId
              machineName := machineName
              status := "online" }) : Send)
          | _, _ => none)
      else []
    Except.ok (st1, onlineSends ++ snapshotSends)
  | _, _ => Except.error 400

/-- Result of JSON.parse on an inbound text frame, cast to
ClientDeliveryReport as the source does (the cast is unchecked; only the
`type` field is inspected before use). -/
structure ParsedClientMessage where
  type : String
  eventId : String
  deliveryId : String
  status : String
  responseStatus : Option Nat
  responseBody : Option String
  error : Option String
  duration : Option Nat
  deriving DecidableEq, Repr

/-- An inbound WebSocket frame as the message handler sees it: a binary
frame (typeof message is not string), or a text frame together with its
JSON.parse outcome (none when JSON.parse throws). -/
inductive ClientMessage where
  | binary
  | text (parsed : Option ParsedClientMessage)
  deriving DecidableEq, Repr

/-- Effects of one hibernation callback: the sends it performed and the
socket handles it closed. -/
structure MsgEffect where
  sends : List Send
  closes : List Nat
  deriving DecidableEq, Repr

/-- webSocketMessage: ignore binary frames and unparsable text; on a parsed
message whose type is "delivery-report", build the delivery-result message
from the reporter's attachment plus the report fields, broadcast it to all
viewers and to all machines except the reporter. The handler never closes a
socket and never mutates the connection state (returned unchanged). -/
def webSocketMessage (st : DOState) (ws : Socket) (message : ClientMessage) :
    DOState × MsgEffect :=
  match message with
  | ClientMessage.binary => (st, { sends := [], closes := [] })
  | ClientMessage.text none => (st, { sends := [], closes := [] })
  | ClientMessage.text (some parsed) =>
    if parsed.type = "delivery-report" then
      let attachment := ws.attachment
      let resultMsg : DeliveryResultMessage := {
        eventId := parsed.eventId
        deliveryId := parsed.deliveryId
        machineId := attachment.machineId.getD ""
        machineName := attachment.machineName.getD ""
        status := parsed.status
        responseStatus := parsed.responseStatus
        responseBody := parsed.responseBody
        error := parsed.error
        duration := parsed.duration }
      let sends :=
        broadcastToViewers st (ServerMessage.deliveryResult resultMsg) ++
          broadcastToMachines st (ServerMessage.deliveryResult resultMsg)
            (some ws)
      (st, { sends := sends, closes := [] })
    else (st, { sends := [], closes := [] })

/-- webSocketClose: when the closing socket's attachment has role "machine"
and a truthy machineId, broadcast an offline machine-status to viewers; then
close the socket. -/
def webSocketClose (st : DOState) (ws : Socket) (code : Nat)
    (reason : String) : MsgEffect :=
  let attachment := ws.attachment
  let sends :=
    if attachment.role = "machine" then
      match jsTruthy attachment.machineId with
      | some machineId =>
        broadcastToViewers st (ServerMessage.machineStatus {
          machineId := machineId
          machineName := attachment.machineName.getD ""
          status := "offline" })
      | none => []
    else []
  { sends := sends, closes := [ws.sid] }

/-- What the machine-side local forward observed from fetch: either fetch
threw (isError says whether the thrown value was an Error instance, message
is its message when it was), or a response arrived with a status code and an
optional body text (none when res.text() itself threw). -/
inductive FetchOutcome where
  | threw (isError : Bool) (message : String)
  | responded (status : Nat) (bodyText : Option String)
  deriving DecidableEq, Repr

/-- Response.ok per the fetch specification: status in the range [200, 300). -/
def resOk (status : Nat) : Bool :=
  200 ≤ status && status < 300

/-- Return value of forwardWebhookLocally. -/
structure ForwardResult where
  duration : Nat
  error : Option String
  responseBody : Option String
  responseStatus : Option Nat
  status : String
  deriving DecidableEq, Repr

/-- forwardWebhookLocally: result construction as a function of the fetch
outcome. The wall-clock duration (Date.now() difference) is passed in as an
opaque elapsed value. On a response: delivered iff res.ok, response status
recorded, body truncated to 10000 characters when longer. On a throw:
failed, no response status or body, error set to the thrown message when the
value was an Error and to "Unknown error" otherwise. -/
def forwardWebhookLocally (outcome : FetchOutcome) (duration : Nat) :
    ForwardResult :=
  match outcome with
  | FetchOutcome.threw isError message =>
    { status := "failed"
      responseStatus := none
      responseBody := none
      error := some (if isError then message else "Unknown error")
      duration := duration }
  | FetchOutcome.responded status bodyText =>
    let responseBody :=
      match bodyText with
      | none => none
      | some t => if t.length > 10000 then some (t.take 10000) else some t
    { status := if resOk status then "delivered" else "failed"
      responseStatus := some status
      responseBody := responseBody
      error := none
      duration := duration }

/-- The delivery-report the TUI MonitorScreen sends back over its socket
after forwarding a webhook message locally: eventId and deliveryId are
copied from the inbound webhook message, the rest from the forward result. -/
def buildDeliveryReport (webhookMsg : WebhookEventMessage)
    (result : ForwardResult) : ParsedClientMessage :=
  { type := "delivery-report"
    eventId := webhookMsg.eventId
    deliveryId := webhookMsg.deliveryId
    status := result.status
    responseStatus := result.responseStatus
    responseBody := result.responseBody
    error := result.error
    duration := some result.duration }

/-- A machine record as listed from the durable store (status is the string
"online" or "offline" in the database). -/
structure MachineRec where
  id : String
  name : String
  forwardUrl : String
  status : String
  deriving DecidableEq, Repr

/-- Characters the JS regex metacharacter dot matches: everything except the
four ECMAScript line terminators (LF, CR, LINE SEPARATOR, PARAGRAPH
SEPARATOR). -/
def jsDotMatches (c : Char) : Bool :=
  !(c = Char.ofNat 10 || c = Char.ofNat 13 ||
    c = Char.ofNat 8232 || c = Char.ofNat 8233)

/-- Capture of the JS regex MACHINE_NAME_SUFFIX_RE = /^(.+)-(\d+)$/ applied
to a machine name: the first group of the (greedy) match. The match splits
the name at the final hyphen: the part after it must be a nonempty run of
ASCII digits, and the part before it must be nonempty and free of line
terminators (which the dot does not match). -/
def suffixBase (name : String) : Option String :=
  let digitSuffix := (name.data.reverse.takeWhile Char.isDigit).reverse
  let rest := (name.data.reverse.dropWhile Char.isDigit).reverse
  if digitSuffix.isEmpty then none
  else
    match rest.getLast? with
    | some sep =>
      if sep = '-' then
        let base := rest.dropLast
        if base.isEmpty then none
        else if base.all jsDotMatches then some (String.mk base)
        else none
      else none
    | none => none

/-- Outcome of findOrCreateMachine, abstracting the store calls it issues:
reuse an existing record as-is, reuse it after updating its forward URL, or
register a brand-new record under the given name. -/
inductive ResolveAction where
  | reuse (m : MachineRec)
  | reuseUpdated (id : String) (forwardUrl : String)
  | register (name : String) (forwardUrl : String)
  deriving DecidableEq, Repr

/-- The partition findOrCreateMachine works on: records whose name is the
base name exactly or a base-N variant per the suffix regex. -/
def ownMachinesFor (machines : List MachineRec) (baseName : String) :
    List MachineRec :=
  machines.filter (fun m =>
    m.name == baseName || suffixBase m.name == some baseName)

/-- findOrCreateMachine: filter the endpoint's machine records to those whose
name is the base name or a base-N variant; reuse the first offline one
(updating its forward URL only when it differs); otherwise register a new
record, named base-(count+1) when the partition is nonempty and plain base
when it is empty. -/
def findOrCreateMachine (machines : List MachineRec) (forwardUrl : String)
    (baseName : String) : ResolveAction :=
  let ownMachines := ownMachinesFor machines baseName
  match ownMachines.find? (fun m => m.status == "offline") with
  | some offlineMachine =>
    if offlineMachine.forwardUrl ≠ forwardUrl then
      ResolveAction.reuseUpdated offlineMachine.id forwardUrl
    else
      ResolveAction.reuse offlineMachine
  | none =>
    let nextName :=
      if ownMachines.length > 0 then
        baseName ++ "-" ++ toString (ownMachines.length + 1)
      else baseName
    ResolveAction.register nextName forwardUrl

/-- State of the dashboard viewer WebSocket hook (useViewerWebSocket) that
the close/open handlers touch: the connected flag, whether a socket object
is held, and the delay of a pending scheduled reconnect, if any. -/
structure ViewerHookState where
  connected : Bool
  wsPresent : Bool
  reconnectDelayMs : Option Nat
  deriving DecidableEq, Repr

/-- ws.onclose of useViewerWebSocket: mark disconnected, drop the socket ref,
and schedule connect() after a constant 3000 ms. -/
def viewerOnClose (s : ViewerHookState) : ViewerHookState :=
  { s with
    connected := false
    wsPresent := false
    reconnectDelayMs := some 3000 }

/-- ws.onopen of useViewerWebSocket: mark connected. -/
def viewerOnOpen (s : ViewerHookState) : ViewerHookState :=
  { s with connected := true }

/-- State of the TUI MonitorScreen machine WebSocket that its close/error
listeners touch. -/
structure MonitorWsState where
  connected : Bool
  wsStatus : String
  reconnectDelayMs : Option Nat
  deriving DecidableEq, Repr

/-- close listener of the MonitorScreen machine socket: status text only;
no reconnect is scheduled. -/
def monitorOnClose (s : MonitorWsState) : MonitorWsState :=
  { s with connected := false, wsStatus := "disconnected" }

/-- error listener of the MonitorScreen machine socket: status text only;
no reconnect is scheduled. -/
def monitorOnError (s : MonitorWsState) : MonitorWsState :=
  { s with wsStatus := "connection error" }

/-- webSocketError: identical offline broadcast to webSocketClose, then
close the socket with code 1011. -/
def webSocketError (st : DOState) (ws : Socket) : MsgEffect :=
  let attachment := ws.attachment
  let sends :=
    if attachment.role = "machine" then
      match jsTruthy attachment.machineId with
      | some machineId =>
        broadcastToViewers st (ServerMessage.machineStatus {
          machineId := machineId
          machineName := attachment.machineName.getD ""
          status := "offline" })
      | none => []
    else []
  { sends := sends, closes := [ws.sid] }

/-- The delivery-result message webSocketMessage builds from the reporter's
attachment and a parsed delivery-report. -/
def reportResult (ws : Socket) (parsed : ParsedClientMessage) :
    DeliveryResultMessage :=
  { eventId := parsed.eventId
    deliveryId := parsed.deliveryId
    machineId := ws.attachment.machineId.getD ""
    machineName := ws.attachment.machineName.getD ""
    status := parsed.status
    responseStatus := parsed.responseStatus
    responseBody := parsed.responseBody
    error := parsed.error
    duration := parsed.duration }

/-!
Concrete fixtures: a viewer socket, two machine sockets, and small
connection states, used by witnesses and counterexamples.
-/

/-- A viewer socket with handle 0. -/
def vSock : Socket :=
  { sid := 0
    attachment :=
      { machineId := none, machineName := none, role := "viewer"
        userId := "u1" } }

/-- A machine socket with handle 1, machine id m1, name Box. -/
def mSock : Socket :=
  { sid := 1
    attachment :=
      { machineId := some "m1", machineName := some "Box", role := "machine"
        userId := "u2" } }

/-- A second machine socket with handle 2, machine id m2, name Crate. -/
def m2Sock : Socket :=
  { sid := 2
    attachment :=
      { machineId := some "m2", machineName := some "Crate", role := "machine"
        userId := "u3" } }

/-- State with just the viewer connected. -/
def stV : DOState := { sockets := [vSock] }

/-- State with just machine m1 connected. -/
def stM : DOState := { sockets := [mSock] }

/-- State with the viewer and machine m1 connected. -/
def stMV : DOState := { sockets := [vSock, mSock] }

/-- State with the viewer and both machines connected. -/
def stMVM : DOState := { sockets := [vSock, mSock, m2Sock] }

/-- A broadcast payload for event e1 with the given deliveries record. -/
def payloadWith (deliveries : List (String × String)) : BroadcastPayload :=
  { body := some "hello"
    contentType := some "application/json"
    createdAt := "2024-01-01T00:00:00Z"
    deliveries := deliveries
    eventId := "e1"
    headers := "\x7b\x7d"
    method := "POST"
    query := none
    sourceIp := some "203.0.113.7" }

/-- A well-formed delivery-report as parsed from a machine client. -/
def rep1 : ParsedClientMessage :=
  { type := "delivery-report"
    eventId := "e1"
    deliveryId := "d1"
    status := "delivered"
    responseStatus := some 200
    responseBody := some "ok"
    error := none
    duration := some 34 }

/-- A webhook message as delivered to machine m1 for event e1. -/
def wMsg : WebhookEventMessage :=
  { body := some "hello"
    contentType := some "application/json"
    createdAt := "2024-01-01T00:00:00Z"
    deliveryId := "d1"
    eventId := "e1"
    headers := "\x7b\x7d"
    method := "POST"
    query := none
    sourceIp := some "203.0.113.7" }

/-- An online machine record named Box. -/
def mrecOnline : MachineRec :=
  { id := "1", name := "Box", forwardUrl := "http://old", status := "online" }

/-- An offline machine record named Box-2 with a stale forward URL. -/
def mrecOff : MachineRec :=
  { id := "2", name := "Box-2", forwardUrl := "http://old"
    status := "offline" }

/-!
Generic list lemmas used to reason about broadcast loops over socket
snapshots.
-/

theorem filterMap_eq_map_of {α β : Type} (l : List α) (f : α → Option β)
    (g : α → β) (h : ∀ a ∈ l, f a = some (g a)) : l.filterMap f = l.map g := by
  induction l with
  | nil => rfl
  | cons a t ih =>
    have ha := h a (List.mem_cons_self a t)
    simp [List.filterMap_cons, ha,
      ih (fun x hx => h x (List.mem_cons_of_mem a hx))]

theorem filter_eq_singleton_of {α : Type} [DecidableEq α] (l : List α)
    (m : α) (q : α → Bool) (hnodup : l.Nodup) (hm : m ∈ l) (hq : q m = true)
    (huniq : ∀ w ∈ l, q w = true → w = m) : l.filter q = [m] := by
  induction l with
  | nil => cases hm
  | cons a t ih =>
    have hnd := List.nodup_cons.mp hnodup
    rcases List.mem_cons.mp hm with rfl | hmt
    · have ht : t.filter q = [] := by
        apply List.filter_eq_nil_iff.mpr
        intro w hw hqw
        exact hnd.1 ((huniq w (List.mem_cons_of_mem m hw) hqw) ▸ hw)
      simp [List.filter_cons, hq, ht]
    · have ham : a ≠ m := fun h => hnd.1 (h ▸ hmt)
      have hqa : ¬ q a = true := fun h =>
        ham (huniq a (List.mem_cons_self a t) h)
      simp only [List.filter_cons, hqa, if_neg hqa]
      exact ih hnd.2 hmt (fun w hw hqw =>
        huniq w (List.mem_cons_of_mem a hw) hqw)

theorem sendsTo_append (a b : List Send) (i : Nat) :
    sendsTo (a ++ b) i = sendsTo a i ++ sendsTo b i := by
  simp [sendsTo, List.filter_append]

theorem sendsTo_map (l : List Socket) (msg : ServerMessage) (i : Nat) :
    sendsTo (l.map (fun w => ((w.sid, msg) : Send))) i
      = (l.filter (fun w => w.sid == i)).map (fun _ => msg) := by
  induction l with
  | nil => rfl
  | cons a t ih =>
    by_cases h : a.sid = i
    · simp [sendsTo, List.filter_cons, h] at ih ⊢
      exact ih
    · simp [sendsTo, List.filter_cons, h] at ih ⊢
      exact ih

/-!
Socket-snapshot lemmas: sid injectivity and the shape of broadcasts.
-/

theorem sid_inj (st : DOState) (hnodup : (st.sockets.map Socket.sid).Nodup) :
    ∀ a ∈ st.sockets, ∀ b ∈ st.sockets, a.sid = b.sid → a = b := by
  intro a ha b hb hab
  exact List.inj_on_of_nodup_map hnodup ha hb hab

theorem machines_sub (st : DOState) (ws : Socket)
    (h : ws ∈ getMachineWebSockets st) :
    ws ∈ st.sockets ∧ ws.attachment.role = "machine" := by
  have := List.mem_filter.mp h
  exact ⟨this.1, by simpa using this.2⟩

theorem viewers_sub (st : DOState) (ws : Socket)
    (h : ws ∈ getViewerWebSockets st) :
    ws ∈ st.sockets ∧ ws.attachment.role = "viewer" := by
  have := List.mem_filter.mp h
  exact ⟨this.1, by simpa using this.2⟩

theorem mem_machines (st : DOState) (ws : Socket) (h : ws ∈ st.sockets)
    (hrole : ws.attachment.role = "machine") :
    ws ∈ getMachineWebSockets st := by
  exact List.mem_filter.mpr ⟨h, by simp [hrole]⟩

theorem mem_viewers (st : DOState) (ws : Socket) (h : ws ∈ st.sockets)
    (hrole : ws.attachment.role = "viewer") :
    ws ∈ getViewerWebSockets st := by
  exact List.mem_filter.mpr ⟨h, by simp [hrole]⟩

theorem machines_nodup (st : DOState)
    (hnodup : (st.sockets.map Socket.sid).Nodup) :
    (getMachineWebSockets st).Nodup :=
  List.Nodup.sublist (List.filter_sublist _) (List.Nodup.of_map _ hnodup)

theorem viewers_nodup (st : DOState)
    (hnodup : (st.sockets.map Socket.sid).Nodup) :
    (getViewerWebSockets st).Nodup :=
  List.Nodup.sublist (List.filter_sublist _) (List.Nodup.of_map _ hnodup)

/-- A broadcast to viewers delivers the message exactly once to each viewer. -/
theorem broadcastToViewers_sendsTo_viewer (st : DOState)
    (msg : ServerMessage) (v : Socket)
    (hnodup : (st.sockets.map Socket.sid).Nodup)
    (hv : v ∈ st.sockets) (hvrole : v.attachment.role = "viewer") :
    sendsTo (broadcastToViewers st msg) v.sid = [msg] := by
  rw [broadcastToViewers, sendsTo_map]
  have hfil : (getViewerWebSockets st).filter (fun w => w.sid == v.sid)
      = [v] := by
    apply filter_eq_singleton_of _ _ _ (viewers_nodup st hnodup)
      (mem_viewers st v hv hvrole) (by simp)
    intro w hw hws
    have hsub := viewers_sub st w hw
    exact sid_inj st hnodup w hsub.1 v hv (by simpa using hws)
  rw [hfil]
  rfl

/-- A broadcast to viewers sends nothing to a machine socket. -/
theorem broadcastToViewers_sendsTo_machine (st : DOState)
    (msg : ServerMessage) (m : Socket)
    (hnodup : (st.sockets.map Socket.sid).Nodup)
    (hm : m ∈ st.sockets) (hmrole : m.attachment.role = "machine") :
    sendsTo (broadcastToViewers st msg) m.sid = [] := by
  rw [broadcastToViewers, sendsTo_map]
  have hfil : (getViewerWebSockets st).filter (fun w => w.sid == m.sid)
      = [] := by
    apply List.filter_eq_nil_iff.mpr
    intro w hw hws
    have hsub := viewers_sub st w hw
    have : w = m := sid_inj st hnodup w hsub.1 m hm (by simpa using hws)
    rw [this] at hsub
    rw [hmrole] at hsub
    exact absurd hsub.2 (by decide)
  rw [hfil]
  rfl

/-- A broadcast to machines excluding the reporter delivers the message
exactly once to each other machine socket. -/
theorem broadcastToMachines_sendsTo_other (st : DOState)
    (msg : ServerMessage) (reporter m : Socket)
    (hnodup : (st.sockets.map Socket.sid).Nodup)
    (hm : m ∈ st.sockets) (hmrole : m.attachment.role = "machine")
    (hne : m.sid ≠ reporter.sid) :
    sendsTo (broadcastToMachines st msg (some reporter)) m.sid = [msg] := by
  rw [broadcastToMachines, sendsTo_map]
  have hfil : ((getMachineWebSockets st).filter
        (fun ws => ws.sid != reporter.sid)).filter (fun w => w.sid == m.sid)
      = [m] := by
    rw [List.filter_filter]
    apply filter_eq_singleton_of _ _ _ (machines_nodup st hnodup)
      (mem_machines st m hm hmrole)
    · simp [hne]
    · intro w hw hws
      have hsub := machines_sub st w hw
      have hws2 : w.sid = m.sid := by
        simp [Bool.and_eq_true] at hws
        exact hws.1
      exact sid_inj st hnodup w hsub.1 m hm hws2
  rw [hfil]
  rfl

/-- A broadcast to machines excluding the reporter sends the reporter
nothing. -/
theorem broadcastToMachines_sendsTo_reporter (st : DOState)
    (msg : ServerMessage) (reporter : Socket)
    (hnodup : (st.sockets.map Socket.sid).Nodup) :
    sendsTo (broadcastToMachines st msg (some reporter)) reporter.sid
      = [] := by
  rw [broadcastToMachines, sendsTo_map]
  have hfil : ((getMachineWebSockets st).filter
        (fun ws => ws.sid != reporter.sid)).filter
          (fun w => w.sid == reporter.sid) = [] := by
    rw [List.filter_filter]
    apply List.filter_eq_nil_iff.mpr
    intro w _ hws
    simp [Bool.and_eq_true] at hws
  rw [hfil]
  rfl

/-- A broadcast to machines excluding the reporter sends a viewer nothing. -/
theorem broadcastToMachines_sendsTo_viewer (st : DOState)
    (msg : ServerMessage) (reporter v : Socket)
    (hnodup : (st.sockets.map Socket.sid).Nodup)
    (hv : v ∈ st.sockets) (hvrole : v.attachment.role = "viewer") :
    sendsTo (broadcastToMachines st msg (some reporter)) v.sid = [] := by
  rw [broadcastToMachines, sendsTo_map]
  have hfil : ((getMachineWebSockets st).filter
        (fun ws => ws.sid != reporter.sid)).filter
          (fun w => w.sid == v.sid) = [] := by
    rw [List.filter_filter]
    apply List.filter_eq_nil_iff.mpr
    intro w hw hws
    simp [Bool.and_eq_true] at hws
    have hsub := machines_sub st w hw
    have : w = v := sid_inj st hnodup w hsub.1 v hv hws.1
    rw [this] at hsub
    rw [hvrole] at hsub
    exact absurd hsub.2 (by decide)
  rw [hfil]
  rfl

theorem webSocketMessage_report_sends (st : DOState) (ws : Socket)
    (parsed : ParsedClientMessage)
    (htype : parsed.type = "delivery-report") :
    (webSocketMessage st ws (ClientMessage.text (some parsed))).2.sends
      = broadcastToViewers st (ServerMessage.deliveryResult
          (reportResult ws parsed)) ++
        broadcastToMachines st (ServerMessage.deliveryResult
          (reportResult ws parsed)) (some ws) := by
  simp [webSocketMessage, htype, reportResult]

/-- A delivery-report from a machine reaches each viewer exactly once. -/
theorem report_sendsTo_viewer (st : DOState) (ws : Socket)
    (parsed : ParsedClientMessage) (v : Socket)
    (hnodup : (st.sockets.map Socket.sid).Nodup)
    (htype : parsed.type = "delivery-report")
    (hv : v ∈ st.sockets) (hvrole : v.attachment.role = "viewer") :
    sendsTo (webSocketMessage st ws (ClientMessage.text (some parsed))).2.sends
        v.sid
      = [ServerMessage.deliveryResult (reportResult ws parsed)] := by
  rw [webSocketMessage_report_sends st ws parsed htype, sendsTo_append,
    broadcastToViewers_sendsTo_viewer st _ v hnodup hv hvrole,
    broadcastToMachines_sendsTo_viewer st _ ws v hnodup hv hvrole]
  rfl

/-- A delivery-report reaches each machine other than the reporter exactly
once. -/
theorem report_sendsTo_other_machine (st : DOState) (ws : Socket)
    (parsed : ParsedClientMessage) (m : Socket)
    (hnodup : (st.sockets.map Socket.sid).Nodup)
    (htype : parsed.type = "delivery-report")
    (hm : m ∈ st.sockets) (hmrole : m.attachment.role = "machine")
    (hne : m.sid ≠ ws.sid) :
    sendsTo (webSocketMessage st ws (ClientMessage.text (some parsed))).2.sends
        m.sid
      = [ServerMessage.deliveryResult (reportResult ws parsed)] := by
  rw [webSocketMessage_report_sends st ws parsed htype, sendsTo_append,
    broadcastToViewers_sendsTo_machine st _ m hnodup hm hmrole,
    broadcastToMachines_sendsTo_other st _ ws m hnodup hm hmrole hne]
  rfl

/-- The reporter itself receives nothing back (it is a machine, hence not a
viewer, and it is excluded from the machine broadcast). -/
theorem report_sendsTo_reporter (st : DOState) (ws : Socket)
    (parsed : ParsedClientMessage)
    (hnodup : (st.sockets.map Socket.sid).Nodup)
    (htype : parsed.type = "delivery-report")
    (hws : ws ∈ st.sockets) (hrole : ws.attachment.role = "machine") :
    sendsTo (webSocketMessage st ws (ClientMessage.text (some parsed))).2.sends
        ws.sid
      = [] := by
  rw [webSocketMessage_report_sends st ws parsed htype, sendsTo_append,
    broadcastToViewers_sendsTo_machine st _ ws hnodup hws hrole,
    broadcastToMachines_sendsTo_reporter st _ ws hnodup]
  rfl

/-!
Characterization of the machine-name suffix regex model.
-/

theorem takeWhile_append_all {α : Type} {p : α → Bool} (l1 l2 : List α)
    (h : ∀ x ∈ l1, p x = true) :
    (l1 ++ l2).takeWhile p = l1 ++ l2.takeWhile p := by
  induction l1 with
  | nil => rfl
  | cons a t ih =>
    have ha := h a (List.mem_cons_self a t)
    simp [List.takeWhile_cons, ha,
      ih (fun x hx => h x (List.mem_cons_of_mem a hx))]

theorem dropWhile_append_all {α : Type} {p : α → Bool} (l1 l2 : List α)
    (h : ∀ x ∈ l1, p x = true) :
    (l1 ++ l2).dropWhile p = l2.dropWhile p := by
  induction l1 with
  | nil => rfl
  | cons a t ih =>
    have ha := h a (List.mem_cons_self a t)
    simp [List.dropWhile_cons, ha,
      ih (fun x hx => h x (List.mem_cons_of_mem a hx))]

theorem getLast?_append_singleton {α : Type} (l : List α) (a : α) :
    (l ++ [a]).getLast? = some a := by
  induction l with
  | nil => rfl
  | cons x t ih =>
    cases t with
    | nil => rfl
    | cons y u => simpa using ih

theorem dropLast_append_singleton {α : Type} (l : List α) (a : α) :
    (l ++ [a]).dropLast = l := by
  induction l with
  | nil => rfl
  | cons x t ih =>
    cases t with
    | nil => rfl
    | cons y u => simpa using ih

theorem eq_dropLast_append_of_getLast? {α : Type} (l : List α) (a : α)
    (h : l.getLast? = some a) : l = l.dropLast ++ [a] := by
  induction l with
  | nil => cases h
  | cons x t ih =>
    cases t with
    | nil => simp_all
    | cons y u =>
      have : (y :: u).getLast? = some a := by simpa using h
      have := ih this
      simp [List.dropLast]
      exact this

theorem rev_drop_take (cs : List Char) (p : Char → Bool) :
    (cs.reverse.dropWhile p).reverse ++ (cs.reverse.takeWhile p).reverse
      = cs := by
  rw [← List.reverse_append, List.takeWhile_append_dropWhile,
    List.reverse_reverse]

theorem string_ext_data {s t : String} (h : s.data = t.data) : s = t :=
  congrArg String.mk h

/-- The regex model really is the declarative relation "name is base, a
hyphen, then a nonempty digit run" (with the base nonempty and free of line
terminators): the greedy first capture group is the unique such base. -/
theorem suffixBase_eq_some_iff (n b : String) :
    suffixBase n = some b ↔
      (b ≠ "" ∧ b.data.all jsDotMatches = true ∧
        ∃ ds : List Char, ds ≠ [] ∧ (∀ c ∈ ds, c.isDigit = true) ∧
          n = b ++ "-" ++ String.mk ds) := by
  constructor
  · intro h
    unfold suffixBase at h
    dsimp only at h
    split at h
    · exact absurd h (by simp)
    next hne =>
      split at h
      next sep hlast =>
        split at h
        next hsep =>
          split at h
          · exact absurd h (by simp)
          next hbase =>
            split at h
            next hdot =>
              have hb : b = String.mk
                  ((n.data.reverse.dropWhile Char.isDigit).reverse.dropLast) :=
                (Option.some.injEq _ _ ▸ h).symm
              subst hb
              refine ⟨?_, hdot,
                (n.data.reverse.takeWhile Char.isDigit).reverse, ?_, ?_, ?_⟩
              · intro hcon
                apply hbase
                have hd :
                    ((n.data.reverse.dropWhile Char.isDigit).reverse.dropLast)
                      = [] := congrArg String.data hcon
                simp [hd]
              · intro hcon
                apply hne
                simp [hcon]
              · intro c hc
                rw [List.mem_reverse] at hc
                exact List.mem_takeWhile_imp hc
              · apply string_ext_data
                have hr := eq_dropLast_append_of_getLast? _ sep hlast
                rw [hsep] at hr
                have hsplit := rev_drop_take n.data Char.isDigit
                rw [hr] at hsplit
                exact hsplit.symm
            · exact absurd h (by simp)
        · exact absurd h (by simp)
      · exact absurd h (by simp)
  · rintro ⟨hb, hdot, ds, hds, hdig, hn⟩
    subst hn
    have h45 : Char.isDigit (Char.ofNat 45) = false := by decide
    have hdata : (b ++ "-" ++ String.mk ds).data = (b.data ++ ['-']) ++ ds :=
      rfl
    have hbd : b.data ≠ [] := by
      intro hcon
      exact hb (string_ext_data (by simpa using hcon))
    have hrev : ((b.data ++ ['-']) ++ ds).reverse
        = ds.reverse ++ '-' :: b.data.reverse := by
      simp [List.reverse_append]
    have hdigr : ∀ x ∈ ds.reverse, Char.isDigit x = true := by
      intro x hx
      exact hdig x (List.mem_reverse.mp hx)
    have htw : (ds.reverse ++ '-' :: b.data.reverse).takeWhile Char.isDigit
        = ds.reverse := by
      rw [takeWhile_append_all _ _ hdigr, List.takeWhile_cons]
      simp [h45]
    have hdw : (ds.reverse ++ '-' :: b.data.reverse).dropWhile Char.isDigit
        = '-' :: b.data.reverse := by
      rw [dropWhile_append_all _ _ hdigr, List.dropWhile_cons]
      simp [h45]
    have hdse : ds.isEmpty = false := by
      cases ds with
      | nil => exact absurd rfl hds
      | cons a t => rfl
    have hbde : (b.data.isEmpty) = false := by
      cases hbd2 : b.data with
      | nil => exact absurd hbd2 hbd
      | cons a t => rfl
    unfold suffixBase
    dsimp only
    rw [hdata, hrev, htw, hdw]
    rw [List.reverse_reverse, List.reverse_cons, List.reverse_reverse]
    rw [getLast?_append_singleton, dropLast_append_singleton]
    simp [hdse, hbde, hdot, List.isEmpty_iff, hds, hbd]

/-!
Claim theorems.
-/

/-- C1 (amended): handleBroadcast returns the number of currently-registered
machine sockets — including machines that were skipped because their id has
no (truthy) entry in the deliveries map — and with zero machine sockets it
returns 0 and performs no sends, whatever the deliveries map contains. -/
theorem handleBroadcast_returns_machine_count (st : DOState)
    (payload : BroadcastPayload) :
    (handleBroadcast st payload).2 = (getMachineWebSockets st).length ∧
    (getMachineWebSockets st = [] →
      (handleBroadcast st payload).1 = [] ∧
        (handleBroadcast st payload).2 = 0) := by
  refine ⟨rfl, fun h => ⟨?_, ?_⟩⟩ <;> simp [handleBroadcast, h]

/-- C1 witness: with only a viewer connected and an empty deliveries map the
fan-out sends nothing and returns 0 (Scenario A). -/
theorem handleBroadcast_returns_machine_count_witness :
    (handleBroadcast stV (payloadWith [])).1 = [] ∧
      (handleBroadcast stV (payloadWith [])).2 = 0 :=
  (handleBroadcast_returns_machine_count stV (payloadWith [])).2 (by decide)

/-- C1 counterexample: one machine socket is connected but its id is absent
from the deliveries map; nothing is sent, yet the call returns 1 — the
machine that received nothing IS counted, so the result is not the number of
machines the fan-out attempted to send to. -/
theorem handleBroadcast_counts_unsent_machine :
    (handleBroadcast stM (payloadWith [])).1 = [] ∧
      (handleBroadcast stM (payloadWith [])).2 = 1 := by
  decide

/-- C3 (amended): a webhook message is sent on a socket during fan-out iff
that socket is a registered machine whose attachment carries a truthy (JS
nonempty) machine id that the deliveries map binds to a truthy delivery id;
and every webhook message sent to that socket carries exactly the delivery
id looked up for its machine id, for the broadcast event. An entry whose
value is the empty string does not count (the source tests the looked-up
value for truthiness, so an empty-string delivery id is skipped). -/
theorem handleBroadcast_send_iff (st : DOState) (payload : BroadcastPayload)
    (ws : Socket) (hnodup : (st.sockets.map Socket.sid).Nodup)
    (hmem : ws ∈ st.sockets) :
    ((∃ m, (ws.sid, ServerMessage.webhook m) ∈ (handleBroadcast st payload).1)
        ↔ (ws.attachment.role = "machine" ∧
          ∃ mid did, jsTruthy ws.attachment.machineId = some mid ∧
            jsTruthy (jsLookup payload.deliveries mid) = some did)) ∧
    (∀ m, (ws.sid, ServerMessage.webhook m) ∈ (handleBroadcast st payload).1 →
      ∃ mid, jsTruthy ws.attachment.machineId = some mid ∧
        jsTruthy (jsLookup payload.deliveries mid) = some m.deliveryId ∧
        m.eventId = payload.eventId) := by
  have key : ∀ m : WebhookEventMessage,
      (ws.sid, ServerMessage.webhook m) ∈ (handleBroadcast st payload).1 →
      ws.attachment.role = "machine" ∧
      ∃ mid, jsTruthy ws.attachment.machineId = some mid ∧
        jsTruthy (jsLookup payload.deliveries mid) = some m.deliveryId ∧
        m.eventId = payload.eventId := by
    intro m hm
    rw [show (handleBroadcast st payload).1
        = (getMachineWebSockets st).filterMap (fun w =>
          match jsTruthy w.attachment.machineId with
          | none => none
          | some machineId =>
            match jsTruthy (jsLookup payload.deliveries machineId) with
            | none => none
            | some deliveryId =>
              some (w.sid, ServerMessage.webhook {
                eventId := payload.eventId
                deliveryId := deliveryId
                method := payload.method
                headers := payload.headers
                body := payload.body
                query := payload.query
                contentType := payload.contentType
                sourceIp := payload.sourceIp
                createdAt := payload.createdAt })) from rfl] at hm
    rw [List.mem_filterMap] at hm
    obtain ⟨w, hw, hfw⟩ := hm
    have hwsub := machines_sub st w hw
    cases h1 : jsTruthy w.attachment.machineId with
    | none => rw [h1] at hfw; cases hfw
    | some mid =>
      rw [h1] at hfw
      dsimp only at hfw
      cases h2 : jsTruthy (jsLookup payload.deliveries mid) with
      | none => rw [h2] at hfw; cases hfw
      | some did =>
        rw [h2] at hfw
        dsimp only at hfw
        have hpair := Option.some.inj hfw
        have hsid : w.sid = ws.sid := congrArg Prod.fst hpair
        have hweq : w = ws := sid_inj st hnodup w hwsub.1 ws hmem hsid
        subst hweq
        have hmsg := congrArg Prod.snd hpair
        simp only at hmsg
        have hmm : ({
            eventId := payload.eventId
            deliveryId := did
            method := payload.method
            headers := payload.headers
            body := payload.body
            query := payload.query
            contentType := payload.contentType
            sourceIp := payload.sourceIp
            createdAt := payload.createdAt } : WebhookEventMessage) = m := by
          injection hmsg
        subst hmm
        exact ⟨hwsub.2, mid, h1, h2, rfl⟩
  constructor
  · constructor
    · rintro ⟨m, hm⟩
      obtain ⟨hrole, mid, h1, h2, _⟩ := key m hm
      exact ⟨hrole, mid, m.deliveryId, h1, h2⟩
    · rintro ⟨hrole, mid, did, h1, h2⟩
      refine ⟨{
        eventId := payload.eventId
        deliveryId := did
        method := payload.method
        headers := payload.headers
        body := payload.body
        query := payload.query
        contentType := payload.contentType
        sourceIp := payload.sourceIp
        createdAt := payload.createdAt }, ?_⟩
      rw [show (handleBroadcast st payload).1
          = (getMachineWebSockets st).filterMap (fun w =>
            match jsTruthy w.attachment.machineId with
            | none => none
            | some machineId =>
              match jsTruthy (jsLookup payload.deliveries machineId) with
              | none => none
              | some deliveryId =>
                some (w.sid, ServerMessage.webhook {
                  eventId := payload.eventId
                  deliveryId := deliveryId
                  method := payload.method
                  headers := payload.headers
                  body := payload.body
                  query := payload.query
                  contentType := payload.contentType
                  sourceIp := payload.sourceIp
                  createdAt := payload.createdAt })) from rfl]
      rw [List.mem_filterMap]
      refine ⟨ws, mem_machines st ws hmem hrole, ?_⟩
      rw [h1]
      dsimp only
      rw [h2]
  · intro m hm
    exact (key m hm).2

/-- C3 witness: machine m1 is connected and bound to delivery d1, so it gets
exactly the fan-out send predicted by the iff (Scenario C). -/
theorem handleBroadcast_send_iff_witness :
    (stMV.sockets.map Socket.sid).Nodup ∧ mSock ∈ stMV.sockets ∧
    (∃ m, (mSock.sid, ServerMessage.webhook m)
        ∈ (handleBroadcast stMV (payloadWith [("m1", "d1")])).1) :=
  ⟨by decide, by decide,
    (handleBroadcast_send_iff stMV (payloadWith [("m1", "d1")]) mSock
        (by decide) (by decide)).1.mpr
      ⟨by decide, "m1", "d1", by decide, by decide⟩⟩

/-- C3 counterexample: machine m1 is registered and its id appears as a key
of the deliveries map, yet nothing is sent, because the bound delivery id is
the empty string and the source skips falsy delivery ids — so send-iff-key,
as stated, is false. -/
theorem handleBroadcast_empty_deliveryId_not_sent :
    jsLookup (payloadWith [("m1", "")]).deliveries "m1" = some "" ∧
    mSock.attachment.machineId = some "m1" ∧
    mSock ∈ stMV.sockets ∧ mSock.attachment.role = "machine" ∧
    (handleBroadcast stMV (payloadWith [("m1", "")])).1 = [] := by
  decide

/-- C2 (amended): each single invocation of close or error handling for a
socket whose attachment has role machine and a truthy machine id broadcasts
exactly one offline machine-status to each connected viewer; but the handlers
keep no per-socket removal flag, so when both the close and a later error
callback fire for the same socket, each invocation emits its own offline
broadcast (see the counterexample). -/
theorem disconnect_offline_broadcast_per_invocation (st : DOState)
    (ws : Socket) (code : Nat) (reason : String) (mid : String) (v : Socket)
    (hnodup : (st.sockets.map Socket.sid).Nodup)
    (hrole : ws.attachment.role = "machine")
    (hmid : jsTruthy ws.attachment.machineId = some mid)
    (hv : v ∈ st.sockets) (hvrole : v.attachment.role = "viewer") :
    sendsTo (webSocketClose st ws code reason).sends v.sid
      = [ServerMessage.machineStatus {
          machineId := mid
          machineName := ws.attachment.machineName.getD ""
          status := "offline" }] ∧
    sendsTo (webSocketError st ws).sends v.sid
      = [ServerMessage.machineStatus {
          machineId := mid
          machineName := ws.attachment.machineName.getD ""
          status := "offline" }] := by
  constructor
  · show sendsTo
      (if ws.attachment.role = "machine" then
        match jsTruthy ws.attachment.machineId with
        | some machineId =>
          broadcastToViewers st (ServerMessage.machineStatus {
            machineId := machineId
            machineName := ws.attachment.machineName.getD ""
            status := "offline" })
        | none => []
      else []) v.sid = _
    rw [if_pos hrole, hmid]
    exact broadcastToViewers_sendsTo_viewer st _ v hnodup hv hvrole
  · show sendsTo
      (if ws.attachment.role = "machine" then
        match jsTruthy ws.attachment.machineId with
        | some machineId =>
          broadcastToViewers st (ServerMessage.machineStatus {
            machineId := machineId
            machineName := ws.attachment.machineName.getD ""
            status := "offline" })
        | none => []
      else []) v.sid = _
    rw [if_pos hrole, hmid]
    exact broadcastToViewers_sendsTo_viewer st _ v hnodup hv hvrole

/-- C2 witness: in the viewer-plus-machine state, one close invocation for
machine m1 delivers the viewer exactly one offline message, and so does one
error invocation. -/
theorem disconnect_offline_broadcast_witness :
    sendsTo (webSocketClose stMV mSock 1001 "going away").sends vSock.sid
      = [ServerMessage.machineStatus {
          machineId := "m1", machineName := "Box", status := "offline" }] ∧
    sendsTo (webSocketError stMV mSock).sends vSock.sid
      = [ServerMessage.machineStatus {
          machineId := "m1", machineName := "Box", status := "offline" }] :=
  disconnect_offline_broadcast_per_invocation stMV mSock 1001 "going away"
    "m1" vSock (by decide) (by decide) (by decide) (by decide) (by decide)

/-- C2 counterexample: when the close callback fires for machine m1 and a
later error callback fires for the same socket (by which time the runtime
has already dropped it from the socket list), the viewer receives an offline
broadcast from EACH invocation — two in total for one socket lifetime, not
at most one. -/
theorem double_disconnect_double_offline :
    sendsTo ((webSocketClose stMV mSock 1006 "abnormal").sends
        ++ (webSocketError stV mSock).sends) vSock.sid
      = [ServerMessage.machineStatus {
            machineId := "m1", machineName := "Box", status := "offline" },
          ServerMessage.machineStatus {
            machineId := "m1", machineName := "Box", status := "offline" }] := by
  decide

/-- C9: a binary frame, an unparsable text frame, and a parsed message whose
type is not delivery-report all leave the message handler silent: no sends,
no closed socket, and the connection state is returned unchanged. -/
theorem webSocketMessage_ignores_malformed (st : DOState) (ws : Socket) :
    webSocketMessage st ws ClientMessage.binary
        = (st, { sends := [], closes := [] }) ∧
    webSocketMessage st ws (ClientMessage.text none)
        = (st, { sends := [], closes := [] }) ∧
    (∀ parsed : ParsedClientMessage, parsed.type ≠ "delivery-report" →
      webSocketMessage st ws (ClientMessage.text (some parsed))
        = (st, { sends := [], closes := [] })) := by
  refine ⟨rfl, rfl, fun parsed h => ?_⟩
  simp [webSocketMessage, h]

/-- C9 witness: a message parsed with type webhook (not delivery-report) is
dropped silently by the concrete machine socket's handler. -/
theorem webSocketMessage_ignores_malformed_witness :
    webSocketMessage stMV mSock (ClientMessage.text (some {
        type := "webhook", eventId := "e1", deliveryId := "d1"
        status := "delivered", responseStatus := some 200
        responseBody := none, error := none, duration := some 12 }))
      = (stMV, { sends := [], closes := [] }) :=
  (webSocketMessage_ignores_malformed stMV mSock).2.2
    { type := "webhook", eventId := "e1", deliveryId := "d1"
      status := "delivered", responseStatus := some 200
      responseBody := none, error := none, duration := some 12 }
    (by decide)

/-- C5: a delivery-report received on a machine socket produces exactly one
delivery-result on each viewer socket, exactly one on each machine socket
other than the reporter, and none back to the reporter; the message is the
report fields together with the reporter's identity as resolved from its
connection attachment. -/
theorem delivery_report_broadcast (st : DOState) (ws : Socket)
    (parsed : ParsedClientMessage)
    (hnodup : (st.sockets.map Socket.sid).Nodup)
    (hmem : ws ∈ st.sockets) (hrole : ws.attachment.role = "machine")
    (htype : parsed.type = "delivery-report") :
    (∀ v ∈ st.sockets, v.attachment.role = "viewer" →
      sendsTo (webSocketMessage st ws
          (ClientMessage.text (some parsed))).2.sends v.sid
        = [ServerMessage.deliveryResult (reportResult ws parsed)]) ∧
    (∀ m ∈ st.sockets, m.attachment.role = "machine" → m.sid ≠ ws.sid →
      sendsTo (webSocketMessage st ws
          (ClientMessage.text (some parsed))).2.sends m.sid
        = [ServerMessage.deliveryResult (reportResult ws parsed)]) ∧
    sendsTo (webSocketMessage st ws
        (ClientMessage.text (some parsed))).2.sends ws.sid = [] ∧
    reportResult ws parsed = {
      eventId := parsed.eventId
      deliveryId := parsed.deliveryId
      machineId := ws.attachment.machineId.getD ""
      machineName := ws.attachment.machineName.getD ""
      status := parsed.status
      responseStatus := parsed.responseStatus
      responseBody := parsed.responseBody
      error := parsed.error
      duration := parsed.duration } := by
  refine ⟨?_, ?_, ?_, rfl⟩
  · intro v hv hvrole
    exact report_sendsTo_viewer st ws parsed v hnodup htype hv hvrole
  · intro m hm hmrole hne
    exact report_sendsTo_other_machine st ws parsed m hnodup htype hm hmrole
      hne
  · exact report_sendsTo_reporter st ws parsed hnodup htype hmem hrole

/-- C5 witness: with a viewer and two machines connected, machine m1's
report reaches the viewer once, machine m2 once, and m1 itself not at all
(Scenario D plus the machine-side mirror). -/
theorem delivery_report_broadcast_witness :
    sendsTo (webSocketMessage stMVM mSock
        (ClientMessage.text (some rep1))).2.sends vSock.sid
      = [ServerMessage.deliveryResult (reportResult mSock rep1)] ∧
    sendsTo (webSocketMessage stMVM mSock
        (ClientMessage.text (some rep1))).2.sends m2Sock.sid
      = [ServerMessage.deliveryResult (reportResult mSock rep1)] ∧
    sendsTo (webSocketMessage stMVM mSock
        (ClientMessage.text (some rep1))).2.sends mSock.sid = [] :=
  ⟨(delivery_report_broadcast stMVM mSock rep1 (by decide) (by decide)
      (by decide) (by decide)).1 vSock (by decide) (by decide),
    (delivery_report_broadcast stMVM mSock rep1 (by decide) (by decide)
      (by decide) (by decide)).2.1 m2Sock (by decide) (by decide) (by decide),
    (delivery_report_broadcast stMVM mSock rep1 (by decide) (by decide)
      (by decide) (by decide)).2.2.1⟩

/-- C6: round-trip — when a machine client builds its delivery-report from a
webhook message and a local forward result, and the relay handles that
report, every viewer observes exactly one delivery-result carrying the same
eventId and deliveryId as the original webhook message. -/
theorem webhook_report_roundtrip (st : DOState) (ws v : Socket)
    (w : WebhookEventMessage) (result : ForwardResult)
    (hnodup : (st.sockets.map Socket.sid).Nodup)
    (hv : v ∈ st.sockets) (hvrole : v.attachment.role = "viewer") :
    ∃ dr : DeliveryResultMessage,
      sendsTo (webSocketMessage st ws (ClientMessage.text (some
          (buildDeliveryReport w result)))).2.sends v.sid
        = [ServerMessage.deliveryResult dr] ∧
      dr.eventId = w.eventId ∧ dr.deliveryId = w.deliveryId := by
  refine ⟨reportResult ws (buildDeliveryReport w result), ?_, rfl, rfl⟩
  exact report_sendsTo_viewer st ws _ v hnodup rfl hv hvrole

/-- C6 witness: machine m1 forwards the concrete webhook for event e1 to a
local destination answering 200, reports back, and the viewer observes a
delivery-result with the same eventId e1 and deliveryId d1. -/
theorem webhook_report_roundtrip_witness :
    ∃ dr : DeliveryResultMessage,
      sendsTo (webSocketMessage stMV mSock (ClientMessage.text (some
          (buildDeliveryReport wMsg (forwardWebhookLocally
            (FetchOutcome.responded 200 (some "ok")) 42))))).2.sends vSock.sid
        = [ServerMessage.deliveryResult dr] ∧
      dr.eventId = wMsg.eventId ∧ dr.deliveryId = wMsg.deliveryId :=
  webhook_report_roundtrip stMV mSock vSock wMsg
    (forwardWebhookLocally (FetchOutcome.responded 200 (some "ok")) 42)
    (by decide) (by decide) (by decide)

/-- C4: when a viewer upgrade is accepted while N machine sockets are
registered (each with a truthy machine id and name, as every properly
registered machine has), the upgrade itself sends exactly the synthetic
online snapshot: one machine-status message per registered machine, every
one addressed point-to-point to the new viewer socket, N messages in total —
and nothing else, so they precede any later broadcast. -/
theorem viewer_upgrade_snapshot (st : DOState) (fresh : Nat)
    (params : UpgradeParams) (userId : String)
    (hrole : params.role = some "viewer")
    (huid : jsTruthy params.userId = some userId)
    (hwf : ∀ ws ∈ st.sockets, ws.attachment.role = "machine" →
      jsTruthy ws.attachment.machineId ≠ none ∧
      jsTruthy ws.attachment.machineName ≠ none) :
    ∃ st1 sends, handleWebSocketUpgrade st fresh params
        = Except.ok (st1, sends) ∧
      sends = (getMachineWebSockets st).map (fun ws =>
        ((fresh, ServerMessage.machineStatus {
          machineId := (jsTruthy ws.attachment.machineId).getD ""
          machineName := (jsTruthy ws.attachment.machineName).getD ""
          status := "online" }) : Send)) ∧
      sends.length = (getMachineWebSockets st).length ∧
      (∀ s ∈ sends, s.1 = fresh) := by
  have h1 : jsTruthy params.role = some "viewer" := by
    rw [hrole]
    rfl
  unfold handleWebSocketUpgrade
  rw [h1, huid]
  dsimp only
  rw [if_neg (by decide : ¬ ("viewer" : String) = "machine")]
  rw [if_pos rfl]
  have hms : getMachineWebSockets { sockets := st.sockets ++
      [⟨fresh, ⟨params.machineId, params.machineName, "viewer", userId⟩⟩] }
      = getMachineWebSockets st := by
    unfold getMachineWebSockets
    rw [List.filter_append]
    simp
  rw [hms]
  have hmap : (getMachineWebSockets st).filterMap (fun ws =>
      match jsTruthy ws.attachment.machineId,
          jsTruthy ws.attachment.machineName with
      | some machineId, some machineName =>
        some ((fresh, ServerMessage.machineStatus {
          machineId := machineId
          machineName := machineName
          status := "online" }) : Send)
      | _, _ => none)
      = (getMachineWebSockets st).map (fun ws =>
        ((fresh, ServerMessage.machineStatus {
          machineId := (jsTruthy ws.attachment.machineId).getD ""
          machineName := (jsTruthy ws.attachment.machineName).getD ""
          status := "online" }) : Send)) := by
    apply filterMap_eq_map_of
    intro ws hws
    have hsub := machines_sub st ws hws
    obtain ⟨hmid, hmnm⟩ := hwf ws hsub.1 hsub.2
    cases hx : jsTruthy ws.attachment.machineId with
    | none => exact absurd hx hmid
    | some x =>
      cases hy : jsTruthy ws.attachment.machineName with
      | none => exact absurd hy hmnm
      | some y => simp [hx, hy]
  rw [hmap]
  refine ⟨_, _, rfl, rfl, by simp, ?_⟩
  intro s hs
  obtain ⟨ws, _, hws⟩ := List.mem_map.mp hs
  rw [← hws]

/-- C4 witness: a viewer joining while machine m1 (id m1, name Box) is
connected receives exactly the one-element snapshot, addressed to the new
socket handle 7. -/
theorem viewer_upgrade_snapshot_witness :
    ∃ st1 sends, handleWebSocketUpgrade stMV 7
        { role := some "viewer", machineId := none, machineName := none
          userId := some "u9" } = Except.ok (st1, sends) ∧
      sends = (getMachineWebSockets stMV).map (fun ws =>
        ((7, ServerMessage.machineStatus {
          machineId := (jsTruthy ws.attachment.machineId).getD ""
          machineName := (jsTruthy ws.attachment.machineName).getD ""
          status := "online" }) : Send)) ∧
      sends.length = (getMachineWebSockets stMV).length ∧
      (∀ s ∈ sends, s.1 = 7) :=
  viewer_upgrade_snapshot stMV 7
    { role := some "viewer", machineId := none, machineName := none
      userId := some "u9" } "u9" rfl rfl (by decide)

/-- C7 (amended): the matching partition is exactly the records whose name
is the base name or the base name, a hyphen, and a nonempty digit run; if
any partition record is offline, the first one found is reused — with its
forward URL updated exactly when it differs — and when every partition
record is online a new record is registered, named base-(count+1) when the
partition is nonempty and plain base when the partition is empty. -/
theorem findOrCreateMachine_spec (machines : List MachineRec)
    (forwardUrl baseName : String) :
    (∀ m, m ∈ ownMachinesFor machines baseName ↔
      (m ∈ machines ∧ (m.name = baseName ∨
        (baseName ≠ "" ∧ baseName.data.all jsDotMatches = true ∧
          ∃ ds : List Char, ds ≠ [] ∧ (∀ c ∈ ds, c.isDigit = true) ∧
            m.name = baseName ++ "-" ++ String.mk ds)))) ∧
    (∀ m, (ownMachinesFor machines baseName).find?
        (fun m => m.status == "offline") = some m →
      findOrCreateMachine machines forwardUrl baseName =
        (if m.forwardUrl ≠ forwardUrl then
          ResolveAction.reuseUpdated m.id forwardUrl
        else ResolveAction.reuse m)) ∧
    ((ownMachinesFor machines baseName).find?
        (fun m => m.status == "offline") = none →
      ownMachinesFor machines baseName ≠ [] →
      findOrCreateMachine machines forwardUrl baseName =
        ResolveAction.register
          (baseName ++ "-" ++
            toString ((ownMachinesFor machines baseName).length + 1))
          forwardUrl) ∧
    (ownMachinesFor machines baseName = [] →
      findOrCreateMachine machines forwardUrl baseName =
        ResolveAction.register baseName forwardUrl) := by
  refine ⟨?_, ?_, ?_, ?_⟩
  · intro m
    rw [ownMachinesFor, List.mem_filter]
    constructor
    · rintro ⟨hm, hcond⟩
      refine ⟨hm, ?_⟩
      rcases Bool.or_eq_true _ _ |>.mp hcond with h | h
      · exact Or.inl (by simpa using h)
      · have : suffixBase m.name = some baseName := by simpa using h
        rcases (suffixBase_eq_some_iff m.name baseName).mp this with
          ⟨hb, hdot, ds, hds, hdig, hn⟩
        exact Or.inr ⟨hb, hdot, ds, hds, hdig, hn⟩
    · rintro ⟨hm, hcond⟩
      refine ⟨hm, ?_⟩
      rcases hcond with h | ⟨hb, hdot, ds, hds, hdig, hn⟩
      · simp [h]
      · have : suffixBase m.name = some baseName :=
          (suffixBase_eq_some_iff m.name baseName).mpr
            ⟨hb, hdot, ds, hds, hdig, hn⟩
        simp [this]
  · intro m h
    unfold findOrCreateMachine
    dsimp only
    rw [h]
  · intro hnone hne
    unfold findOrCreateMachine
    dsimp only
    rw [hnone]
    dsimp only
    rw [if_pos (List.length_pos.mpr hne)]
  · intro hempty
    unfold findOrCreateMachine
    dsimp only
    rw [hempty]
    rfl

/-- C7 witness: with one online Box record the resolver registers Box-2
(count 1, so suffix count+1 = 2), and with one offline Box-2 record whose
forward URL is stale it reuses that record, updating the URL. -/
theorem findOrCreateMachine_spec_witness :
    findOrCreateMachine [mrecOnline] "http://new" "Box"
      = ResolveAction.register
          ("Box" ++ "-" ++
            toString ((ownMachinesFor [mrecOnline] "Box").length + 1))
          "http://new" ∧
    findOrCreateMachine [mrecOff] "http://new" "Box"
      = (if mrecOff.forwardUrl ≠ "http://new" then
          ResolveAction.reuseUpdated mrecOff.id "http://new"
        else ResolveAction.reuse mrecOff) :=
  ⟨(findOrCreateMachine_spec [mrecOnline] "http://new" "Box").2.2.1
      (by decide) (by decide),
    (findOrCreateMachine_spec [mrecOff] "http://new" "Box").2.1 mrecOff
      (by decide)⟩

/-- C7 counterexample: with no matching records at all (so, vacuously, all
matching records are online and count = 0) the claim requires the new name
base-(count+1) = Box-1, but the code registers the plain base name Box. -/
theorem findOrCreateMachine_empty_partition_name :
    ownMachinesFor [] "Box" = [] ∧
    findOrCreateMachine [] "http://new" "Box"
      = ResolveAction.register "Box" "http://new" ∧
    ("Box" : String) ≠ "Box" ++ "-" ++ toString (0 + 1) := by
  decide

/-- C8: the dashboard viewer hook schedules every reconnect after the same
constant 3000 ms delay — the delay scheduled after a second consecutive
failure equals the one after the first, so the delay does not start at one
unit, never doubles, and needs no cap — reaching the connected state resets
nothing, and the TUI machine screen's close and error listeners schedule no
reconnect at all. This contradicts the documented behavior (changelog:
reconnection with exponential backoff, 1s-30s cap). -/
theorem reconnect_delay_constant :
    (∀ s, (viewerOnClose s).reconnectDelayMs = some 3000) ∧
    (∀ s, (viewerOnClose (viewerOnClose s)).reconnectDelayMs
        = (viewerOnClose s).reconnectDelayMs) ∧
    (∀ s, (viewerOnOpen s).reconnectDelayMs = s.reconnectDelayMs) ∧
    (∀ s, (monitorOnClose s).reconnectDelayMs = s.reconnectDelayMs ∧
      (monitorOnError s).reconnectDelayMs = s.reconnectDelayMs) :=
  ⟨fun _ => rfl, fun _ => rfl, fun _ => rfl, fun _ => ⟨rfl, rfl⟩⟩

/-- C10: the local forward reports delivered exactly when the destination
answered with a 2xx status (the response status is echoed and no error is
set); a thrown Error reports failed with no response status and the thrown
message; and in every case the reported response body is at most 10000
characters. -/
theorem forwardWebhookLocally_spec :
    (∀ status bodyText duration,
      ((forwardWebhookLocally (FetchOutcome.responded status bodyText)
          duration).status = "delivered" ↔ (200 ≤ status ∧ status < 300)) ∧
      ((forwardWebhookLocally (FetchOutcome.responded status bodyText)
          duration).status = "failed" ↔ ¬(200 ≤ status ∧ status < 300)) ∧
      (forwardWebhookLocally (FetchOutcome.responded status bodyText)
          duration).responseStatus = some status ∧
      (forwardWebhookLocally (FetchOutcome.responded status bodyText)
          duration).error = none) ∧
    (∀ message duration,
      forwardWebhookLocally (FetchOutcome.threw true message) duration
        = { status := "failed", responseStatus := none, responseBody := none
            error := some message, duration := duration }) ∧
    (∀ outcome duration,
      ((forwardWebhookLocally outcome duration).responseBody.getD
        "").length ≤ 10000) := by
  refine ⟨?_, fun message duration => rfl, ?_⟩
  · intro status bodyText duration
    by_cases hok : resOk status = true
    · have hiff : 200 ≤ status ∧ status < 300 := by
        simpa [resOk, Bool.and_eq_true, decide_eq_true_iff] using hok
      refine ⟨?_, ?_, rfl, rfl⟩ <;>
        simp [forwardWebhookLocally, hok, hiff]
    · have hiff : ¬ (200 ≤ status ∧ status < 300) := by
        simpa [resOk, Bool.and_eq_true, decide_eq_true_iff] using hok
      refine ⟨?_, ?_, rfl, rfl⟩ <;>
        simp [forwardWebhookLocally,
          Bool.eq_false_iff.mpr hok, hiff]
  · intro outcome duration
    cases outcome with
    | threw isError message => simp [forwardWebhookLocally]
    | responded status bodyText =>
      cases bodyText with
      | none => simp [forwardWebhookLocally]
      | some t =>
        have hrb : (forwardWebhookLocally
            (FetchOutcome.responded status (some t)) duration).responseBody
            = if t.length > 10000 then some (t.take 10000) else some t := rfl
        rw [hrb]
        by_cases hlen : t.length > 10000
        · rw [if_pos hlen, Option.getD_some, String.take_eq]
          show (t.data.take 10000).length ≤ 10000
          rw [List.length_take]
          exact Nat.min_le_left _ _
        · rw [if_neg hlen, Option.getD_some]
          omega
